import Mathlib

/-!
# HealthMetrics watchface: formatting logic of `src/main.c`

A shallow embedding of the two functions of `src/main.c` that compute
something: `update_watchface` (the four health-metric texts and the diagnostic
log) and `draw_battery` (the battery fill height).  The time, date and AM/PM
texts are produced by `strftime` alone and are left out, as are the window and
layer set-up and the stroke colour of the battery outline.

Conventions of the embedding

* `int` and `int32_t` values are `Int`s; the readings handed over by the health
  service are 32-bit values, so theorems about all inputs range over
  `[-2^31, 2^31)`.  C division truncates towards zero: `Int.tdiv`.
* `snprintf (buf, size, fmt, ...)` is split in two steps: the complete text
  that the format produces, and the cut to `size - 1` characters that is stored
  in the buffer.
* `float` and `double` arithmetic is IEEE 754 binary32 / binary64 with
  round-to-nearest, ties-to-even, modelled exactly on integers: a value is a
  mantissa and a binary exponent.  The values that occur are finite and far
  from the exponent limits, so neither subnormal numbers nor infinities are
  modelled; the sign is handled where the value is built.
-/

namespace HealthMetrics

/-! ## C library: decimal conversion and `snprintf` -/

/-- The conversion `%i` / `%d` of `printf`: decimal digits, with a leading minus
sign for a negative argument. -/
def fmtInt (i : Int) : String :=
  if i < 0 then "-" ++ Nat.repr i.natAbs else Nat.repr i.natAbs

/-- What `snprintf (buf, size, ...)` leaves in `buf` when the complete text is
`text`: at most `size - 1` characters (the last byte holds the terminator). -/
def snprintf (size : Nat) (text : String) : String :=
  ⟨text.data.take (size - 1)⟩

/-- Two's-complement reduction of an integer to the range of a 32-bit `int`. -/
def wrap32 (x : Int) : Int :=
  (x + 2 ^ 31) % 2 ^ 32 - 2 ^ 31

/-! ## Binary floating point, round-to-nearest-even -/

/-- Number of binary digits of `n`, computed with `fuel` halvings. -/
def bitLengthAux : Nat → Nat → Nat
  | 0, _ => 0
  | fuel + 1, n => if n = 0 then 0 else bitLengthAux fuel (n / 2) + 1

/-- Number of binary digits of `n` (`0` for `0`). -/
def bitLength (n : Nat) : Nat :=
  bitLengthAux n n

/-- A non-negative binary floating-point value `mant * 2 ^ exp`. -/
structure PFloat where
  mant : Nat
  exp : Int
deriving DecidableEq

/-- The integer nearest to `(n + ε) / 2 ^ sh`, ties to even, where `ε` is `0`
when `sticky` is false and some amount strictly between `0` and `1` when it is
true (then `sh` must be positive). -/
def rneShift (n sh : Nat) (sticky : Bool) : Nat :=
  let q := n / 2 ^ sh
  let twice := 2 * (n % 2 ^ sh) + (if sticky then 1 else 0)
  if 2 ^ sh < twice ∨ (twice = 2 ^ sh ∧ q % 2 = 1) then q + 1 else q

/-- Rounding of `n` (`+ ε` when `sticky`) to `prec` significant bits. -/
def roundSig (prec n : Nat) (sticky : Bool) : PFloat :=
  let sh := bitLength n - prec
  ⟨rneShift n sh sticky, (sh : Int)⟩

/-- Conversion of a non-negative integer to a float of precision `prec`. -/
def PFloat.ofNat (prec n : Nat) : PFloat :=
  roundSig prec n false

/-- The float of precision `prec` nearest to the fraction `p / q`: a decimal
literal such as `3.281F` is `ofRat 24 3281 1000`. -/
def PFloat.ofRat (prec p q : Nat) : PFloat :=
  let s := prec + 1 + bitLength q
  let r := roundSig prec (p * 2 ^ s / q) (p * 2 ^ s % q != 0)
  ⟨r.mant, r.exp - (s : Int)⟩

/-- Correctly rounded product. -/
def PFloat.mul (prec : Nat) (a b : PFloat) : PFloat :=
  let r := roundSig prec (a.mant * b.mant) false
  ⟨r.mant, r.exp + a.exp + b.exp⟩

/-- Correctly rounded quotient. -/
def PFloat.div (prec : Nat) (a b : PFloat) : PFloat :=
  let r := PFloat.ofRat prec a.mant b.mant
  ⟨r.mant, r.exp + a.exp - b.exp⟩

/-- Integer part of a float (conversion to an integer type drops the
fraction). -/
def PFloat.trunc (x : PFloat) : Nat :=
  if 0 ≤ x.exp then x.mant * 2 ^ x.exp.toNat else x.mant / 2 ^ (-x.exp).toNat

/-- Significand width of `float`. -/
def floatPrec : Nat := 24

/-- Significand width of `double`. -/
def doublePrec : Nat := 53

/-! ## `draw_battery` -/

/-- `#define CELLHEIGHT 12` -/
def CELLHEIGHT : Nat := 12

/-- What `draw_battery` computes: the fill height, whether the fill colour is
red, and the filled rectangle `(x, y, w, h)`. -/
structure BatteryDrawing where
  level : Int
  red : Bool
  rect : Int × Int × Int × Int
deriving DecidableEq

/-- `int level = ((CELLHEIGHT / 100.0) * battery_state_service_peek().charge_percent);`
evaluated in `double`, then the colour choice `level <= 2` and the rectangle
`GRect(7, 4+CELLHEIGHT-level, 5, level)`. -/
def draw_battery (charge_percent : Nat) : BatteryDrawing :=
  let cell := PFloat.div doublePrec (PFloat.ofNat doublePrec CELLHEIGHT)
    (PFloat.ofRat doublePrec 100 1)
  let level : Int :=
    ((PFloat.mul doublePrec cell (PFloat.ofNat doublePrec charge_percent)).trunc : Int)
  ⟨level, decide (level ≤ 2), (7, 4 + (CELLHEIGHT : Int) - level, 5, level)⟩

/-! ## `update_watchface` -/

/-- Values of the SDK enumeration `MeasurementSystem`; a C enumeration can hold
any integer, so the type is `Int`.  Of the three enumerators below only their
being distinct matters to `update_watchface`. -/
abbrev MeasurementSystem := Int

/-- Modelled from the spec: the enumerator `MeasurementSystemUnknown` of the
SDK header `pebble.h`, which is not part of the repository. -/
def MeasurementSystemUnknown : MeasurementSystem := 0

/-- Modelled from the spec: the enumerator `MeasurementSystemMetric` of the SDK
header `pebble.h`, which is not part of the repository. -/
def MeasurementSystemMetric : MeasurementSystem := 1

/-- Modelled from the spec: the enumerator `MeasurementSystemImperial` of the
SDK header `pebble.h`, which is not part of the repository. -/
def MeasurementSystemImperial : MeasurementSystem := 2

/-- Answers of the health service during one run of `update_watchface`. -/
structure HealthService where
  stepCount : Int
  activeSeconds : Int
  walkedDistanceMeters : Int
  activeKCalories : Int
  restingKCalories : Int
  system : MeasurementSystem

/-- The health-metric buffers after one run of `update_watchface`, and the
entries written with `APP_LOG`. -/
structure Watchface where
  s_stepcount_buffer : String
  s_activetime_buffer : String
  s_distance_buffer : String
  s_kcal_buffer : String
  log : List String
deriving DecidableEq

/-- Complete text of the step-count format (lines 119-125). -/
def stepcountText (stepcount : Int) : String :=
  if stepcount < 10000 then
    fmtInt stepcount
  else
    fmtInt (stepcount.tdiv 1000) ++ "." ++
      fmtInt ((stepcount - stepcount.tdiv 1000 * 1000).tdiv 100) ++ "k"

/-- `active_hours = active_time / 3600;` -/
def activeHours (active_time : Int) : Int :=
  active_time.tdiv 3600

/-- `active_mins = active_time / 60 - active_hours * 60;` -/
def activeMins (active_time : Int) : Int :=
  active_time.tdiv 60 - activeHours active_time * 60

/-- Complete text of the active-time format `"%ih %im"` (lines 127-131). -/
def activetimeText (active_time : Int) : String :=
  fmtInt (activeHours active_time) ++ "h " ++ fmtInt (activeMins active_time) ++ "m"

/-- Complete text of the Metric distance format `"%d.%dkm"` (lines 139-141). -/
def metricText (meters : Int) : String :=
  fmtInt (meters.tdiv 1000) ++ "." ++
    fmtInt ((meters - meters.tdiv 1000 * 1000).tdiv 100) ++ "km"

/-- `int feet = (int)((float)meters * 3.281F);`: the `float` product, its
fraction dropped.  A product outside the range of `int` is clamped to it, as
the ARM run-time conversion does (C leaves that case undefined). -/
def imperialFeet (meters : Int) : Int :=
  let prod := PFloat.mul floatPrec (PFloat.ofNat floatPrec meters.natAbs)
    (PFloat.ofRat floatPrec 3281 1000)
  let mag : Int := (prod.trunc : Int)
  if meters < 0 then max (-(2 ^ 31)) (-mag) else min (2 ^ 31 - 1) mag

/-- Complete text of the Imperial distance format `"%d.%dmi"` applied to
`feet` (lines 146-147). -/
def imperialText (feet : Int) : String :=
  fmtInt (feet.tdiv 5280) ++ "." ++
    fmtInt ((feet - feet.tdiv 5280 * 5280).tdiv 528) ++ "mi"

/-- The message of the `APP_LOG` call in the default branch. -/
def unknownSystemMessage : String :=
  "MeasurementSystem unknown or does not apply"

/-- The `switch (system)` of lines 137-154: complete distance text and log
entries. -/
def distanceText (system : MeasurementSystem) (meters : Int) : String × List String :=
  if system = MeasurementSystemMetric then
    (metricText meters, [])
  else if system = MeasurementSystemImperial then
    (imperialText (imperialFeet meters), [])
  else
    ("Unknown", [unknownSystemMessage])

/-- Complete text of the kcal format (lines 156-158); the `int` sum wraps
around. -/
def kcalText (activeKcal restingKcal : Int) : String :=
  fmtInt (wrap32 (activeKcal + restingKcal))

/-- The health-metric part of `update_watchface`: every buffer has 8 bytes
(lines 100-103). -/
def update_watchface (h : HealthService) : Watchface :=
  let dist := distanceText h.system h.walkedDistanceMeters
  { s_stepcount_buffer := snprintf 8 (stepcountText h.stepCount)
    s_activetime_buffer := snprintf 8 (activetimeText h.activeSeconds)
    s_distance_buffer := snprintf 8 dist.1
    s_kcal_buffer := snprintf 8 (kcalText h.activeKCalories h.restingKCalories)
    log := dist.2 }

/-! ## Decimal conversion: facts about `Nat.repr` -/

theorem digitChar_isDigit (d : Nat) (hd : d < 10) : (Nat.digitChar d).isDigit = true := by
  interval_cases d <;> decide

theorem digitChar_ne_zero (d : Nat) (hd : d < 10) (h0 : 0 < d) : Nat.digitChar d ≠ '0' := by
  interval_cases d <;> decide

theorem toDigitsCore_isDigit (fuel : Nat) : ∀ (n : Nat) (acc : List Char),
    (∀ c ∈ acc, c.isDigit = true) →
    ∀ c ∈ Nat.toDigitsCore 10 fuel n acc, c.isDigit = true := by
  induction fuel with
  | zero => intro n acc hacc; simpa [Nat.toDigitsCore] using hacc
  | succ fuel ih =>
    intro n acc hacc
    have hd : (Nat.digitChar (n % 10)).isDigit = true :=
      digitChar_isDigit _ (Nat.mod_lt _ (by decide))
    have hacc2 : ∀ c ∈ Nat.digitChar (n % 10) :: acc, c.isDigit = true := by
      intro c hc
      rcases List.mem_cons.mp hc with rfl | hc
      · exact hd
      · exact hacc c hc
    simp only [Nat.toDigitsCore]
    split
    · exact hacc2
    · exact ih _ _ hacc2

theorem toDigitsCore_head (fuel : Nat) : ∀ (n : Nat) (acc : List Char),
    0 < n → n < fuel → (Nat.toDigitsCore 10 fuel n acc).head? ≠ some '0' := by
  induction fuel with
  | zero => intro n acc _ hf; omega
  | succ fuel ih =>
    intro n acc hn hf
    simp only [Nat.toDigitsCore]
    split
    · rename_i hq
      have hlt : n < 10 := by omega
      have hmod : n % 10 = n := Nat.mod_eq_of_lt hlt
      rw [hmod]
      simpa using digitChar_ne_zero n hlt hn
    · rename_i hq
      exact ih _ _ (by omega) (by omega)

theorem toDigitsCore_length_ge (fuel : Nat) : ∀ (n e : Nat) (acc : List Char),
    n < fuel → (e = 0 ∨ 10 ^ e ≤ n) →
    e + 1 + acc.length ≤ (Nat.toDigitsCore 10 fuel n acc).length := by
  induction fuel with
  | zero => intro n e acc hf; omega
  | succ fuel ih =>
    intro n e acc hf he
    simp only [Nat.toDigitsCore]
    split
    · rename_i hq
      have hlt : n < 10 := by omega
      have he0 : e = 0 := by
        rcases he with he | he
        · exact he
        · by_contra hne
          have : 10 ^ 1 ≤ 10 ^ e := Nat.pow_le_pow_right (by decide) (by omega)
          omega
      subst he0
      simp only [List.length_cons]
      omega
    · rename_i hq
      have hstep : e - 1 = 0 ∨ 10 ^ (e - 1) ≤ n / 10 := by
        rcases he with he | he
        · left; omega
        · by_cases h1 : e ≤ 1
          · left; omega
          · right
            have hpow : 10 ^ e = 10 ^ (e - 1) * 10 := by
              rw [← pow_succ]; congr 1; omega
            rw [Nat.le_div_iff_mul_le (by decide)]
            omega
      have := ih (n / 10) (e - 1) (Nat.digitChar (n % 10) :: acc) (by omega) hstep
      simp only [List.length_cons] at this
      omega

/-- Every character of a decimal rendering is a digit. -/
theorem repr_isDigit (n : Nat) : ∀ c ∈ (Nat.repr n).data, c.isDigit = true := by
  intro c hc
  exact toDigitsCore_isDigit _ _ [] (by simp) c (by simpa [Nat.repr, Nat.toDigits] using hc)

/-- A positive number is rendered without a leading zero. -/
theorem repr_head (n : Nat) (hn : 0 < n) : (Nat.repr n).data.head? ≠ some '0' := by
  simpa [Nat.repr, Nat.toDigits] using toDigitsCore_head (n + 1) n [] hn (by omega)

/-- A number of at least `10 ^ e` has more than `e` digits. -/
theorem repr_length_gt (n e : Nat) (h : 10 ^ e ≤ n) : e < (Nat.repr n).length := by
  have := toDigitsCore_length_ge (n + 1) n e [] (by omega) (Or.inr h)
  simp only [List.length_nil] at this
  simp only [Nat.repr, Nat.toDigits, String.length, List.asString]
  omega

theorem repr_length_pos (n : Nat) : 0 < (Nat.repr n).length := by
  have := toDigitsCore_length_ge (n + 1) n 0 [] (by omega) (Or.inl rfl)
  simp only [List.length_nil] at this
  simp only [Nat.repr, Nat.toDigits, String.length, List.asString]
  omega

/-- A number below `10 ^ e` has at most `e` digits. -/
theorem repr_length_le (n e : Nat) (he : 0 < e) (h : n < 10 ^ e) :
    (Nat.repr n).length ≤ e :=
  Nat.repr_length n e he h

theorem repr_length_one (n : Nat) (h : n < 10) : (Nat.repr n).length = 1 := by
  have h1 := repr_length_le n 1 (by decide) (by simpa using h)
  have h2 := repr_length_pos n
  omega

/-! ## `snprintf` and the C operators on non-negative values -/

theorem snprintf_length (size : Nat) (text : String) :
    (snprintf size text).length ≤ size - 1 := by
  show (text.data.take (size - 1)).length ≤ size - 1
  rw [List.length_take]
  exact Nat.min_le_left _ _

theorem snprintf_eq_iff (text : String) : snprintf 8 text = text ↔ text.length ≤ 7 := by
  constructor
  · intro h
    have := snprintf_length 8 text
    rw [h] at this
    exact this
  · intro h
    have hd : text.data.take 7 = text.data := List.take_of_length_le h
    simp only [snprintf]
    show (⟨text.data.take 7⟩ : String) = text
    rw [hd]

theorem fmtInt_natCast (n : Nat) : fmtInt (n : Int) = Nat.repr n := by
  simp [fmtInt]

theorem tdiv_natCast (a b : Nat) : (a : Int).tdiv (b : Int) = ((a / b : Nat) : Int) := by
  rw [Int.tdiv_eq_ediv (by omega) (by omega)]
  norm_cast

theorem frac_natCast (a b c : Nat) :
    ((a : Int) - (a : Int).tdiv (b : Int) * (b : Int)).tdiv (c : Int)
      = ((a % b / c : Nat) : Int) := by
  have h1 : (a : Int) - (a : Int).tdiv (b : Int) * (b : Int) = ((a % b : Nat) : Int) := by
    rw [tdiv_natCast]
    have := Nat.div_add_mod a b
    have h2 : ((b * (a / b) + a % b : Nat) : Int) = (a : Int) := by rw [this]
    push_cast at h2
    push_cast
    linarith
  rw [h1, tdiv_natCast]

theorem repr_length_le_iff (n e : Nat) (he : 0 < e) :
    (Nat.repr n).length ≤ e ↔ n < 10 ^ e := by
  constructor
  · intro h
    by_contra hn
    have := repr_length_gt n e (by omega)
    omega
  · exact repr_length_le n e he

/-! ## Step count -/

theorem stepcountText_small (n : Nat) (h : n < 10000) :
    stepcountText (n : Int) = Nat.repr n := by
  have h1 : (n : Int) < 10000 := by omega
  simp only [stepcountText, if_pos h1, fmtInt_natCast]

theorem stepcountText_large (n : Nat) (h : 10000 ≤ n) :
    stepcountText (n : Int)
      = Nat.repr (n / 1000) ++ "." ++ Nat.repr (n % 1000 / 100) ++ "k" := by
  have h1 : ¬ ((n : Int) < 10000) := by omega
  have h2 := tdiv_natCast n 1000
  have h3 := frac_natCast n 1000 100
  simp only [Nat.cast_ofNat] at h2 h3
  simp only [stepcountText, if_neg h1]
  rw [h3, h2, fmtInt_natCast, fmtInt_natCast]

theorem stepcountText_length (n : Nat) (h : 10000 ≤ n) :
    (stepcountText (n : Int)).length = (Nat.repr (n / 1000)).length + 3 := by
  rw [stepcountText_large n h]
  simp only [String.length_append, repr_length_one (n % 1000 / 100) (by omega)]
  rfl

/-- C2: for a step count in `[0, 9999]` the step-count buffer holds the plain
decimal rendering of the count: digits only (so neither a decimal point nor the
suffix `k` of the abbreviated form), at most four of them, and no leading zero
for a positive count. -/
theorem C2_stepcount_plain (h : HealthService) (steps : Nat)
    (hs : h.stepCount = (steps : Int)) (hhi : steps ≤ 9999) :
    (update_watchface h).s_stepcount_buffer = Nat.repr steps ∧
    (∀ c ∈ (update_watchface h).s_stepcount_buffer.data, c.isDigit = true) ∧
    (update_watchface h).s_stepcount_buffer.length ≤ 4 ∧
    (0 < steps → (update_watchface h).s_stepcount_buffer.data.head? ≠ some '0') := by
  have hlen : (Nat.repr steps).length ≤ 4 := repr_length_le steps 4 (by decide) (by omega)
  have hbuf : (update_watchface h).s_stepcount_buffer = Nat.repr steps := by
    show snprintf 8 (stepcountText h.stepCount) = Nat.repr steps
    rw [hs, stepcountText_small steps (by omega)]
    exact (snprintf_eq_iff _).mpr (by omega)
  rw [hbuf]
  exact ⟨rfl, repr_isDigit steps, hlen, repr_head steps⟩

/-- Instance of C2 at 9999 steps. -/
theorem C2_stepcount_plain_witness :
    (update_watchface ⟨9999, 0, 0, 0, 0, 0⟩).s_stepcount_buffer = "9999" :=
  (C2_stepcount_plain ⟨9999, 0, 0, 0, 0, 0⟩ 9999 rfl (by decide)).1.trans (by decide)

/-- C1 is false as stated: at 10000000 steps (a 32-bit value) the complete text
`10000.0k` has eight characters and the 8-byte buffer keeps `10000.0`, without
the suffix. -/
theorem C1_counterexample :
    (update_watchface ⟨10000000, 0, 0, 0, 0, 0⟩).s_stepcount_buffer = "10000.0" ∧
    Nat.repr (10000000 / 1000) ++ "." ++ Nat.repr (10000000 % 1000 / 100) ++ "k"
      = "10000.0k" ∧
    (update_watchface ⟨10000000, 0, 0, 0, 0, 0⟩).s_stepcount_buffer
      ≠ Nat.repr (10000000 / 1000) ++ "." ++ Nat.repr (10000000 % 1000 / 100) ++ "k" := by
  decide

/-- C1 (amended): for a step count of at least 10000 the step-count buffer
holds the first seven characters of `<t>.<h>k`, where `t` is the decimal
rendering of `steps / 1000` and `h` the single digit `(steps mod 1000) / 100`;
that is the whole text exactly when `steps < 10000000`. -/
theorem C1_stepcount_abbreviated (h : HealthService) (steps : Nat)
    (hs : h.stepCount = (steps : Int)) (hlo : 10000 ≤ steps) :
    (Nat.repr (steps % 1000 / 100)).length = 1 ∧
    (update_watchface h).s_stepcount_buffer
      = snprintf 8 (Nat.repr (steps / 1000) ++ "." ++ Nat.repr (steps % 1000 / 100) ++ "k") ∧
    ((update_watchface h).s_stepcount_buffer
      = Nat.repr (steps / 1000) ++ "." ++ Nat.repr (steps % 1000 / 100) ++ "k"
      ↔ steps < 10000000) := by
  have hbuf : (update_watchface h).s_stepcount_buffer
      = snprintf 8 (stepcountText (steps : Int)) := by
    show snprintf 8 (stepcountText h.stepCount) = _
    rw [hs]
  have hlen := stepcountText_length steps hlo
  have hiff := repr_length_le_iff (steps / 1000) 4 (by decide)
  rw [hbuf, ← stepcountText_large steps hlo, snprintf_eq_iff]
  refine ⟨repr_length_one _ (by omega), rfl, ?_⟩
  constructor
  · intro hle
    have : steps / 1000 < 10 ^ 4 := hiff.mp (by omega)
    omega
  · intro hlt
    have : (Nat.repr (steps / 1000)).length ≤ 4 := hiff.mpr (by omega)
    omega

/-- Instance of C1 (amended) at 12345 and at 10000 steps. -/
theorem C1_stepcount_abbreviated_witness :
    (update_watchface ⟨12345, 0, 0, 0, 0, 0⟩).s_stepcount_buffer = "12.3k" ∧
    (update_watchface ⟨10000, 0, 0, 0, 0, 0⟩).s_stepcount_buffer = "10.0k" :=
  ⟨((C1_stepcount_abbreviated ⟨12345, 0, 0, 0, 0, 0⟩ 12345 rfl (by decide)).2.2.mpr
      (by decide)).trans (by decide),
   ((C1_stepcount_abbreviated ⟨10000, 0, 0, 0, 0, 0⟩ 10000 rfl (by decide)).2.2.mpr
      (by decide)).trans (by decide)⟩

/-! ## Active time -/

theorem activeHours_natCast (s : Nat) : activeHours (s : Int) = ((s / 3600 : Nat) : Int) := by
  have h := tdiv_natCast s 3600
  simp only [Nat.cast_ofNat] at h
  exact h

theorem activeMins_natCast (s : Nat) :
    activeMins (s : Int) = ((s / 60 - 60 * (s / 3600) : Nat) : Int) := by
  have h := tdiv_natCast s 60
  simp only [Nat.cast_ofNat] at h
  simp only [activeMins, activeHours_natCast, h]
  omega

theorem activetimeText_natCast (s : Nat) :
    activetimeText (s : Int)
      = Nat.repr (s / 3600) ++ "h " ++ Nat.repr (s / 60 - 60 * (s / 3600)) ++ "m" := by
  simp only [activetimeText, activeHours_natCast, activeMins_natCast, fmtInt_natCast]

theorem activetimeText_length (s : Nat) :
    (activetimeText (s : Int)).length
      = (Nat.repr (s / 3600)).length + (Nat.repr (s / 60 - 60 * (s / 3600))).length + 3 := by
  rw [activetimeText_natCast]
  simp only [String.length_append]
  have h1 : ("h ").length = 2 := rfl
  have h2 : ("m").length = 1 := rfl
  omega

theorem activetimeText_fits_iff (secs : Nat) :
    (activetimeText (secs : Int)).length ≤ 7 ↔
      secs / 3600 < 100 ∨ (secs / 3600 < 1000 ∧ secs / 60 - 60 * (secs / 3600) < 10) := by
  have hlen := activetimeText_length secs
  have hH2 := repr_length_le_iff (secs / 3600) 2 (by decide)
  have hH3 := repr_length_le_iff (secs / 3600) 3 (by decide)
  have hM1 := repr_length_le_iff (secs / 60 - 60 * (secs / 3600)) 1 (by decide)
  have hM2 : (Nat.repr (secs / 60 - 60 * (secs / 3600))).length ≤ 2 :=
    repr_length_le _ 2 (by decide) (by omega)
  have hMpos := repr_length_pos (secs / 60 - 60 * (secs / 3600))
  constructor
  · intro hle
    by_cases hH : secs / 3600 < 100
    · exact Or.inl hH
    · right
      have h3 : ¬ (Nat.repr (secs / 3600)).length ≤ 2 := fun hc => hH (by simpa using hH2.mp hc)
      have hm : secs / 60 - 60 * (secs / 3600) < 10 ^ 1 := hM1.mp (by omega)
      have hh : secs / 3600 < 10 ^ 3 := hH3.mp (by omega)
      omega
  · rintro (hH | ⟨hH, hM⟩)
    · have := hH2.mpr (by omega)
      omega
    · have := hH3.mpr (by omega)
      have := hM1.mpr (by omega)
      omega

theorem snprintf_prefix_iff (p t : String) :
    p.data <+: (snprintf 8 (p ++ t)).data ↔ p.length ≤ 7 := by
  have hdata : (snprintf 8 (p ++ t)).data = (p.data ++ t.data).take 7 := by
    show ((p ++ t).data).take 7 = _
    rw [String.data_append]
  rw [hdata]
  constructor
  · intro hpre
    have h1 := hpre.length_le
    have h2 : ((p.data ++ t.data).take 7).length ≤ 7 := by
      rw [List.length_take]
      exact Nat.min_le_left _ _
    show p.data.length ≤ 7
    omega
  · intro hle
    have hp : p.data.take 7 = p.data := List.take_of_length_le hle
    rw [List.take_append_eq_append_take, hp]
    exact List.prefix_append _ _

theorem activetimeText_minutes_shown_iff (secs : Nat) :
    (Nat.repr (secs / 3600) ++ "h " ++ Nat.repr (secs % 3600 / 60)).length ≤ 7 ↔
      secs / 3600 < 1000 ∨ (secs / 3600 < 10000 ∧ secs % 3600 / 60 < 10) := by
  have hlen : (Nat.repr (secs / 3600) ++ "h " ++ Nat.repr (secs % 3600 / 60)).length
      = (Nat.repr (secs / 3600)).length + (Nat.repr (secs % 3600 / 60)).length + 2 := by
    simp only [String.length_append]
    have h1 : ("h ").length = 2 := rfl
    omega
  have hH3 := repr_length_le_iff (secs / 3600) 3 (by decide)
  have hH4 := repr_length_le_iff (secs / 3600) 4 (by decide)
  have hM1 := repr_length_le_iff (secs % 3600 / 60) 1 (by decide)
  have hM2 : (Nat.repr (secs % 3600 / 60)).length ≤ 2 :=
    repr_length_le _ 2 (by decide) (by omega)
  have hMpos := repr_length_pos (secs % 3600 / 60)
  rw [hlen]
  constructor
  · intro hle
    by_cases hH : secs / 3600 < 1000
    · exact Or.inl hH
    · right
      have h3 : ¬ (Nat.repr (secs / 3600)).length ≤ 3 := fun hc => hH (by simpa using hH3.mp hc)
      have hm : secs % 3600 / 60 < 10 ^ 1 := hM1.mp (by omega)
      have hh : secs / 3600 < 10 ^ 4 := hH4.mp (by omega)
      omega
  · rintro (hH | ⟨hH, hM⟩)
    · have := hH3.mpr (by omega)
      omega
    · have := hH4.mpr (by omega)
      have := hM1.mpr (by omega)
      omega

/-- C10 is false as stated: at 3600600 active seconds `active_hours` is 1000 and
`active_mins` is 10, the complete text is `1000h 10m`, and the 8-byte buffer
shows `1000h 1`: the minutes on display are 1, which is not
`(3600600 mod 3600) / 60 = 10` and does not bracket the reading. -/
theorem C10_counterexample :
    (update_watchface ⟨0, 3600600, 0, 0, 0, 0⟩).s_activetime_buffer = "1000h 1" ∧
    activeHours 3600600 = 1000 ∧ activeMins 3600600 = 10 ∧
    activetimeText 3600600 = "1000h 10m" ∧ (3600600 % 3600 / 60 : Nat) = 10 ∧
    ¬ ((3600600 : Int) < 1000 * 3600 + 1 * 60 + 60) ∧
    ¬ ((Nat.repr 1000 ++ "h " ++ Nat.repr 10).data
        <+: (update_watchface ⟨0, 3600600, 0, 0, 0, 0⟩).s_activetime_buffer.data) := by
  decide

/-- C10 (amended): for every `activeSeconds ≥ 0` the minutes value `active_mins`
that `update_watchface` computes lies in `0..59`, equals
`(activeSeconds mod 3600) / 60`, and together with `active_hours` brackets the
reading to the minute; the active-time buffer holds the first seven characters
of `<active_hours>h <active_mins>m`.  The digits of `active_mins` are on display
whole exactly when `active_hours < 1000`, or `active_hours < 10000` and
`active_mins < 10`, hence for every reading below 3600600; the whole text is on
display for every reading below 360600. -/
theorem C10_active_mins_displayed (h : HealthService) (secs : Nat)
    (hs : h.activeSeconds = (secs : Int)) :
    0 ≤ activeMins h.activeSeconds ∧ activeMins h.activeSeconds ≤ 59 ∧
    activeMins h.activeSeconds = ((secs % 3600 / 60 : Nat) : Int) ∧
    activeHours h.activeSeconds = ((secs / 3600 : Nat) : Int) ∧
    activeHours h.activeSeconds * 3600 + activeMins h.activeSeconds * 60 ≤ (secs : Int) ∧
    (secs : Int) < activeHours h.activeSeconds * 3600 + activeMins h.activeSeconds * 60 + 60 ∧
    (update_watchface h).s_activetime_buffer
      = snprintf 8 (Nat.repr (secs / 3600) ++ "h " ++ Nat.repr (secs % 3600 / 60) ++ "m") ∧
    ((Nat.repr (secs / 3600) ++ "h " ++ Nat.repr (secs % 3600 / 60)).data
        <+: (update_watchface h).s_activetime_buffer.data
      ↔ secs / 3600 < 1000 ∨ (secs / 3600 < 10000 ∧ secs % 3600 / 60 < 10)) ∧
    (secs < 3600600 →
      (Nat.repr (secs / 3600) ++ "h " ++ Nat.repr (secs % 3600 / 60)).data
        <+: (update_watchface h).s_activetime_buffer.data) ∧
    (secs < 360600 → (update_watchface h).s_activetime_buffer
      = Nat.repr (secs / 3600) ++ "h " ++ Nat.repr (secs % 3600 / 60) ++ "m") := by
  have hmin : secs / 60 - 60 * (secs / 3600) = secs % 3600 / 60 := by omega
  have htext : activetimeText (secs : Int)
      = Nat.repr (secs / 3600) ++ "h " ++ Nat.repr (secs % 3600 / 60) ++ "m" := by
    rw [activetimeText_natCast, hmin]
  have hbuf : (update_watchface h).s_activetime_buffer
      = snprintf 8 (Nat.repr (secs / 3600) ++ "h " ++ Nat.repr (secs % 3600 / 60) ++ "m") := by
    show snprintf 8 (activetimeText h.activeSeconds) = _
    rw [hs, htext]
  have hshown := (snprintf_prefix_iff
    (Nat.repr (secs / 3600) ++ "h " ++ Nat.repr (secs % 3600 / 60)) "m").trans
    (activetimeText_minutes_shown_iff secs)
  have hwhole : secs < 360600 →
      snprintf 8 (Nat.repr (secs / 3600) ++ "h " ++ Nat.repr (secs % 3600 / 60) ++ "m")
        = Nat.repr (secs / 3600) ++ "h " ++ Nat.repr (secs % 3600 / 60) ++ "m" := by
    intro hlt
    rw [← htext]
    apply (snprintf_eq_iff _).mpr
    apply (activetimeText_fits_iff secs).mpr
    omega
  rw [hbuf, hs, activeMins_natCast, activeHours_natCast, hmin]
  refine ⟨by omega, by omega, rfl, rfl, by omega, by omega, rfl, hshown, fun hlt => ?_, hwhole⟩
  apply hshown.mpr
  omega

/-- Instance of C10 (amended) at 86399 active seconds, the last second of a
day. -/
theorem C10_active_mins_displayed_witness :
    activeMins 86399 = 59 ∧
    (update_watchface ⟨0, 86399, 0, 0, 0, 0⟩).s_activetime_buffer = "23h 59m" :=
  ⟨(C10_active_mins_displayed ⟨0, 86399, 0, 0, 0, 0⟩ 86399 rfl).2.2.1.trans (by decide),
   ((C10_active_mins_displayed ⟨0, 86399, 0, 0, 0, 0⟩ 86399 rfl).2.2.2.2.2.2.2.2.2
      (by decide)).trans (by decide)⟩

/-- C3 is false as stated: at 360600 active seconds (100 h 10 min) the complete
text `100h 10m` has eight characters and the 8-byte buffer keeps `100h 10`. -/
theorem C3_counterexample :
    (update_watchface ⟨0, 360600, 0, 0, 0, 0⟩).s_activetime_buffer = "100h 10" ∧
    Nat.repr (360600 / 3600) ++ "h " ++ Nat.repr (360600 / 60 - 60 * (360600 / 3600)) ++ "m"
      = "100h 10m" ∧
    (update_watchface ⟨0, 360600, 0, 0, 0, 0⟩).s_activetime_buffer
      ≠ Nat.repr (360600 / 3600) ++ "h " ++
          Nat.repr (360600 / 60 - 60 * (360600 / 3600)) ++ "m" := by
  decide

/-- C3 (amended): for every `activeSeconds ≥ 0` the active-time buffer holds the
first seven characters of `<h>h <m>m` with `h = activeSeconds / 3600` and
`m = activeSeconds / 60 - 60 * h`; that is the whole text exactly when
`h < 100`, or `h < 1000` and `m < 10`, hence for every reading below 360600. -/
theorem C3_activetime_text (h : HealthService) (secs : Nat)
    (hs : h.activeSeconds = (secs : Int)) :
    (update_watchface h).s_activetime_buffer
      = snprintf 8 (Nat.repr (secs / 3600) ++ "h " ++
          Nat.repr (secs / 60 - 60 * (secs / 3600)) ++ "m") ∧
    ((update_watchface h).s_activetime_buffer
      = Nat.repr (secs / 3600) ++ "h " ++ Nat.repr (secs / 60 - 60 * (secs / 3600)) ++ "m"
      ↔ secs / 3600 < 100 ∨ (secs / 3600 < 1000 ∧ secs / 60 - 60 * (secs / 3600) < 10)) ∧
    (secs < 360600 → (update_watchface h).s_activetime_buffer
      = Nat.repr (secs / 3600) ++ "h " ++
          Nat.repr (secs / 60 - 60 * (secs / 3600)) ++ "m") := by
  have hbuf : (update_watchface h).s_activetime_buffer
      = snprintf 8 (activetimeText (secs : Int)) := by
    show snprintf 8 (activetimeText h.activeSeconds) = _
    rw [hs]
  have hiff := activetimeText_fits_iff secs
  rw [hbuf, ← activetimeText_natCast secs, snprintf_eq_iff]
  refine ⟨rfl, hiff, fun hlt => ?_⟩
  apply hiff.mpr
  omega

/-- Instance of C3 (amended) at 5400 active seconds. -/
theorem C3_activetime_text_witness :
    (update_watchface ⟨0, 5400, 0, 0, 0, 0⟩).s_activetime_buffer = "1h 30m" :=
  ((C3_activetime_text ⟨0, 5400, 0, 0, 0, 0⟩ 5400 rfl).2.2 (by decide)).trans (by decide)

/-! ## Distance, Metric -/

theorem metricText_natCast (n : Nat) :
    metricText (n : Int)
      = Nat.repr (n / 1000) ++ "." ++ Nat.repr (n % 1000 / 100) ++ "km" := by
  have h2 := tdiv_natCast n 1000
  have h3 := frac_natCast n 1000 100
  simp only [Nat.cast_ofNat] at h2 h3
  simp only [metricText]
  rw [h3, h2, fmtInt_natCast, fmtInt_natCast]

theorem metricText_length (n : Nat) :
    (metricText (n : Int)).length = (Nat.repr (n / 1000)).length + 4 := by
  rw [metricText_natCast n]
  simp only [String.length_append, repr_length_one (n % 1000 / 100) (by omega)]
  rfl

/-- C4 is false as stated: at 1000000 walked meters the complete Metric text
`1000.0km` has eight characters and the 8-byte buffer keeps `1000.0k`. -/
theorem C4_counterexample :
    (update_watchface ⟨0, 0, 1000000, 0, 0, MeasurementSystemMetric⟩).s_distance_buffer
      = "1000.0k" ∧
    Nat.repr (1000000 / 1000) ++ "." ++ Nat.repr (1000000 % 1000 / 100) ++ "km"
      = "1000.0km" ∧
    (update_watchface ⟨0, 0, 1000000, 0, 0, MeasurementSystemMetric⟩).s_distance_buffer
      ≠ Nat.repr (1000000 / 1000) ++ "." ++ Nat.repr (1000000 % 1000 / 100) ++ "km" := by
  decide

/-- C4 (amended): for every walked distance `meters ≥ 0` under the Metric system
the distance buffer holds the first seven characters of `<km>.<d>km`, with
`km = meters / 1000` and the single digit `d = (meters mod 1000) / 100`; that is
the whole text exactly when `meters < 1000000`.  Nothing is logged. -/
theorem C4_distance_metric (h : HealthService) (meters : Nat)
    (hsys : h.system = MeasurementSystemMetric)
    (hm : h.walkedDistanceMeters = (meters : Int)) :
    (Nat.repr (meters % 1000 / 100)).length = 1 ∧
    (update_watchface h).s_distance_buffer
      = snprintf 8 (Nat.repr (meters / 1000) ++ "." ++
          Nat.repr (meters % 1000 / 100) ++ "km") ∧
    ((update_watchface h).s_distance_buffer
      = Nat.repr (meters / 1000) ++ "." ++ Nat.repr (meters % 1000 / 100) ++ "km"
      ↔ meters < 1000000) ∧
    (update_watchface h).log = [] := by
  have hdist : distanceText h.system h.walkedDistanceMeters
      = (metricText (meters : Int), []) := by
    rw [hsys, hm]
    simp only [distanceText, if_true]
  have hbuf : (update_watchface h).s_distance_buffer
      = snprintf 8 (metricText (meters : Int)) := by
    show snprintf 8 (distanceText h.system h.walkedDistanceMeters).1 = _
    rw [hdist]
  have hlog : (update_watchface h).log = [] := by
    show (distanceText h.system h.walkedDistanceMeters).2 = _
    rw [hdist]
  have hlen := metricText_length meters
  have hiff := repr_length_le_iff (meters / 1000) 3 (by decide)
  rw [hbuf, ← metricText_natCast meters, snprintf_eq_iff]
  refine ⟨repr_length_one _ (by omega), rfl, ?_, hlog⟩
  constructor
  · intro hle
    have : meters / 1000 < 10 ^ 3 := hiff.mp (by omega)
    omega
  · intro hlt
    have : (Nat.repr (meters / 1000)).length ≤ 3 := hiff.mpr (by omega)
    omega

/-- Instance of C4 (amended) at 1500 meters. -/
theorem C4_distance_metric_witness :
    (update_watchface ⟨0, 0, 1500, 0, 0, MeasurementSystemMetric⟩).s_distance_buffer
      = "1.5km" :=
  ((C4_distance_metric ⟨0, 0, 1500, 0, 0, MeasurementSystemMetric⟩ 1500 rfl rfl).2.2.1.mpr
    (by decide)).trans (by decide)

/-! ## Distance, unknown measurement system -/

/-- C6: for a measurement system that is neither Metric nor Imperial, whatever
the distance reading, the distance buffer holds the whole literal `Unknown`,
exactly one diagnostic entry is logged, and the step-count, active-time and kcal
buffers are what they are under any other measurement system. -/
theorem C6_distance_unknown (h : HealthService)
    (hm : h.system ≠ MeasurementSystemMetric) (hi : h.system ≠ MeasurementSystemImperial) :
    (update_watchface h).s_distance_buffer = "Unknown" ∧
    (distanceText h.system h.walkedDistanceMeters).1 = "Unknown" ∧
    (update_watchface h).log = [unknownSystemMessage] ∧
    (update_watchface h).log.length = 1 ∧
    ∀ (sys : MeasurementSystem) (meters : Int),
      (update_watchface { h with system := sys, walkedDistanceMeters := meters }).s_stepcount_buffer
        = (update_watchface h).s_stepcount_buffer ∧
      (update_watchface { h with system := sys, walkedDistanceMeters := meters }).s_activetime_buffer
        = (update_watchface h).s_activetime_buffer ∧
      (update_watchface { h with system := sys, walkedDistanceMeters := meters }).s_kcal_buffer
        = (update_watchface h).s_kcal_buffer := by
  have hdist : distanceText h.system h.walkedDistanceMeters
      = ("Unknown", [unknownSystemMessage]) := by
    simp only [distanceText, if_neg hm, if_neg hi]
  have hbuf : (update_watchface h).s_distance_buffer = "Unknown" := by
    show snprintf 8 (distanceText h.system h.walkedDistanceMeters).1 = _
    rw [hdist]
    decide
  have hlog : (update_watchface h).log = [unknownSystemMessage] := by
    show (distanceText h.system h.walkedDistanceMeters).2 = _
    rw [hdist]
  refine ⟨hbuf, by rw [hdist], hlog, by rw [hlog]; rfl, ?_⟩
  intro sys meters
  exact ⟨rfl, rfl, rfl⟩

/-- Instance of C6 at the Unknown system and at the unrecognized value 7. -/
theorem C6_distance_unknown_witness :
    (update_watchface ⟨12345, 5400, 1500, 120, 980, MeasurementSystemUnknown⟩).s_distance_buffer
      = "Unknown" ∧
    (update_watchface ⟨12345, 5400, 1500, 120, 980, MeasurementSystemUnknown⟩).log.length = 1 ∧
    (update_watchface ⟨12345, 5400, 1500, 120, 980, 7⟩).s_distance_buffer = "Unknown" :=
  ⟨(C6_distance_unknown ⟨12345, 5400, 1500, 120, 980, MeasurementSystemUnknown⟩
      (by decide) (by decide)).1,
   (C6_distance_unknown ⟨12345, 5400, 1500, 120, 980, MeasurementSystemUnknown⟩
      (by decide) (by decide)).2.2.2.1,
   (C6_distance_unknown ⟨12345, 5400, 1500, 120, 980, 7⟩ (by decide) (by decide)).1⟩

/-! ## Kilocalories -/

theorem wrap32_of_range (x : Int) (h1 : -(2 ^ 31) ≤ x) (h2 : x < 2 ^ 31) : wrap32 x = x := by
  unfold wrap32
  omega

theorem fmtInt_length_le_iff (i : Int) :
    (fmtInt i).length ≤ 7 ↔ -1000000 < i ∧ i < 10000000 := by
  by_cases hneg : i < 0
  · have hlen : (fmtInt i).length = 1 + (Nat.repr i.natAbs).length := by
      simp only [fmtInt, if_pos hneg, String.length_append]
      rfl
    have hiff := repr_length_le_iff i.natAbs 6 (by decide)
    rw [hlen]
    constructor
    · intro hle
      have : i.natAbs < 10 ^ 6 := hiff.mp (by omega)
      omega
    · intro hr
      have : (Nat.repr i.natAbs).length ≤ 6 := hiff.mpr (by omega)
      omega
  · have hlen : (fmtInt i).length = (Nat.repr i.natAbs).length := by
      simp only [fmtInt, if_neg hneg]
    have hiff := repr_length_le_iff i.natAbs 7 (by decide)
    rw [hlen]
    constructor
    · intro hle
      have : i.natAbs < 10 ^ 7 := hiff.mp hle
      omega
    · intro hr
      exact hiff.mpr (by omega)

/-- C8 is false as stated: for the readings 5000000 and 5000000 the sum
10000000 has eight digits and the 8-byte buffer keeps `1000000`. -/
theorem C8_counterexample :
    (update_watchface ⟨0, 0, 0, 5000000, 5000000, 0⟩).s_kcal_buffer = "1000000" ∧
    fmtInt (5000000 + 5000000) = "10000000" ∧
    (update_watchface ⟨0, 0, 0, 5000000, 5000000, 0⟩).s_kcal_buffer
      ≠ fmtInt (5000000 + 5000000) := by
  decide

/-- C8 (amended): for kilocalorie readings whose sum is a 32-bit value, the kcal
buffer holds the first seven characters of the decimal rendering of
`activeKcal + restingKcal`; that is the whole rendering exactly when
`-1000000 < activeKcal + restingKcal < 10000000`. -/
theorem C8_kcal_text (h : HealthService)
    (hlo : -(2 ^ 31) ≤ h.activeKCalories + h.restingKCalories)
    (hhi : h.activeKCalories + h.restingKCalories < 2 ^ 31) :
    (update_watchface h).s_kcal_buffer
      = snprintf 8 (fmtInt (h.activeKCalories + h.restingKCalories)) ∧
    ((update_watchface h).s_kcal_buffer = fmtInt (h.activeKCalories + h.restingKCalories)
      ↔ -1000000 < h.activeKCalories + h.restingKCalories ∧
        h.activeKCalories + h.restingKCalories < 10000000) := by
  have hbuf : (update_watchface h).s_kcal_buffer
      = snprintf 8 (fmtInt (h.activeKCalories + h.restingKCalories)) := by
    show snprintf 8 (kcalText h.activeKCalories h.restingKCalories) = _
    rw [kcalText, wrap32_of_range _ hlo hhi]
  rw [hbuf, snprintf_eq_iff]
  exact ⟨rfl, fmtInt_length_le_iff _⟩

/-- Instance of C8 (amended) at the readings 120 and 980. -/
theorem C8_kcal_text_witness :
    (update_watchface ⟨0, 0, 0, 120, 980, 0⟩).s_kcal_buffer = "1100" :=
  ((C8_kcal_text ⟨0, 0, 0, 120, 980, 0⟩ (by decide) (by decide)).2.mpr
    ⟨by decide, by decide⟩).trans (by decide)

/-! ## Floating point: error of one rounding -/

theorem bitLengthAux_spec (fuel : Nat) : ∀ n : Nat, n ≤ fuel → 0 < n →
    2 ^ (bitLengthAux fuel n - 1) ≤ n ∧ n < 2 ^ bitLengthAux fuel n := by
  induction fuel with
  | zero => intro n h1 h2; omega
  | succ fuel ih =>
    intro n hle hpos
    have hn : n ≠ 0 := by omega
    simp only [bitLengthAux, if_neg hn, Nat.add_sub_cancel]
    by_cases h2 : n / 2 = 0
    · have h1 : n = 1 := by omega
      subst h1
      cases fuel <;> simp [bitLengthAux]
    · obtain ⟨hlo, hhi⟩ := ih (n / 2) (by omega) (by omega)
      have hk : 0 < bitLengthAux fuel (n / 2) := by
        by_contra hc
        have h0 : bitLengthAux fuel (n / 2) = 0 := by omega
        rw [h0] at hhi
        simp at hhi
        omega
      have hp : 2 ^ bitLengthAux fuel (n / 2) = 2 * 2 ^ (bitLengthAux fuel (n / 2) - 1) := by
        rw [← pow_succ']
        congr 1
        omega
      have hs : 2 ^ (bitLengthAux fuel (n / 2) + 1) = 2 * 2 ^ bitLengthAux fuel (n / 2) := by
        rw [pow_succ']
      constructor
      · rw [hp]; omega
      · rw [hs]; omega

/-- The binary digits of a positive `n`: `2 ^ (bitLength n - 1) ≤ n < 2 ^ bitLength n`. -/
theorem bitLength_spec (n : Nat) (h : 0 < n) :
    2 ^ (bitLength n - 1) ≤ n ∧ n < 2 ^ bitLength n :=
  bitLengthAux_spec n n (le_refl n) h

theorem bitLength_le (n k : Nat) (h : n < 2 ^ k) : bitLength n ≤ k := by
  by_cases hn : n = 0
  · subst hn
    have : bitLength 0 = 0 := rfl
    omega
  · by_contra hc
    have h1 := (bitLength_spec n (by omega)).1
    have h2 : 2 ^ k ≤ 2 ^ (bitLength n - 1) := Nat.pow_le_pow_right (by decide) (by omega)
    omega

/-- Rounding to nearest of `n / x`, scaled back by `x`: the result is at most
half of `x` away from `n`. -/
theorem rneShift_error (n sh : Nat) :
    2 * (rneShift n sh false * 2 ^ sh) ≤ 2 * n + 2 ^ sh ∧
    2 * n ≤ 2 * (rneShift n sh false * 2 ^ sh) + 2 ^ sh := by
  have hx : 0 < 2 ^ sh := Nat.two_pow_pos _
  have hdm := Nat.div_add_mod n (2 ^ sh)
  have hmod := Nat.mod_lt n hx
  have hq : n / 2 ^ sh * 2 ^ sh = 2 ^ sh * (n / 2 ^ sh) := Nat.mul_comm _ _
  simp only [rneShift, Bool.false_eq_true, if_false, Nat.add_zero]
  split
  · rename_i hc
    rw [Nat.add_mul, hq, Nat.one_mul]
    omega
  · rename_i hc
    rw [hq]
    omega

theorem rneShift_zero (n : Nat) : rneShift n 0 false = n := by
  simp [rneShift, Nat.mod_one]

/-- A number of at most `prec` binary digits converts exactly. -/
theorem roundSig_exact (prec n : Nat) (h : n < 2 ^ prec) :
    roundSig prec n false = ⟨n, 0⟩ := by
  have hb := bitLength_le n prec h
  have hsh : bitLength n - prec = 0 := by omega
  simp only [roundSig, hsh, rneShift_zero]
  rfl

/-- One rounding to `prec` significant bits: the rounded value `mant * 2 ^ sh`
is within `2 ^ sh / 2` of `n`, and `2 ^ sh * 2 ^ (prec - 1) ≤ n` unless `sh = 0`
(then the value is `n` itself). -/
theorem roundSig_error (prec n : Nat) (hprec : 0 < prec) :
    ∃ sh : Nat, (roundSig prec n false).exp = (sh : Int) ∧
      2 * ((roundSig prec n false).mant * 2 ^ sh) ≤ 2 * n + 2 ^ sh ∧
      2 * n ≤ 2 * ((roundSig prec n false).mant * 2 ^ sh) + 2 ^ sh ∧
      ((roundSig prec n false).mant * 2 ^ sh = n ∨ 2 ^ sh * 2 ^ (prec - 1) ≤ n) := by
  refine ⟨bitLength n - prec, rfl, (rneShift_error n _).1, (rneShift_error n _).2, ?_⟩
  by_cases hb : bitLength n ≤ prec
  · left
    have hsh : bitLength n - prec = 0 := by omega
    show rneShift n (bitLength n - prec) false * 2 ^ (bitLength n - prec) = n
    rw [hsh, rneShift_zero]
    simp
  · right
    have hn : 0 < n := by
      by_contra hc
      have h0 : n = 0 := by omega
      subst h0
      have : bitLength 0 = 0 := rfl
      omega
    have h1 := (bitLength_spec n hn).1
    have : 2 ^ (bitLength n - prec) * 2 ^ (prec - 1) = 2 ^ (bitLength n - 1) := by
      rw [← pow_add]
      congr 1
      omega
    omega

theorem trunc_shift (m sh k : Nat) :
    PFloat.trunc ⟨m, (sh : Int) + 0 + (-(k : Int))⟩ = m * 2 ^ sh / 2 ^ k := by
  have hk : 0 < 2 ^ k := Nat.two_pow_pos _
  simp only [PFloat.trunc]
  by_cases hc : k ≤ sh
  · have h0 : (0 : Int) ≤ (sh : Int) + 0 + (-(k : Int)) := by omega
    have ht : ((sh : Int) + 0 + (-(k : Int))).toNat = sh - k := by omega
    have hs : 2 ^ sh = 2 ^ (sh - k) * 2 ^ k := by
      rw [← pow_add]; congr 1; omega
    rw [if_pos h0, ht, hs, ← Nat.mul_assoc, Nat.mul_div_cancel _ hk]
  · have h0 : ¬ (0 : Int) ≤ (sh : Int) + 0 + (-(k : Int)) := by omega
    have ht : (-((sh : Int) + 0 + (-(k : Int)))).toNat = k - sh := by omega
    have hs : 2 ^ k = 2 ^ (k - sh) * 2 ^ sh := by
      rw [← pow_add]; congr 1; omega
    rw [if_neg h0, ht, hs, Nat.mul_div_mul_right _ _ (Nat.two_pow_pos _)]

/-! ## Distance, Imperial -/

/-- The literal `3.281F` is the `float` `13761511 * 2 ^ (-22)`. -/
theorem float_3281 : PFloat.ofRat floatPrec 3281 1000 = ⟨13761511, -22⟩ := by
  decide

/-- For a distance below `2 ^ 24` meters the conversion to `float` is exact and
`feet` is the rounded product `meters * 13761511`, scaled by `2 ^ (-22)`, its
fraction dropped, clamped to `int`. -/
theorem imperialFeet_natCast (meters : Nat) (h : meters < 2 ^ 24) :
    imperialFeet (meters : Int)
      = min (2 ^ 31 - 1)
          (((PFloat.mul floatPrec ⟨meters, 0⟩ ⟨13761511, -22⟩).trunc : Nat) : Int) := by
  have hneg : ¬ ((meters : Int) < 0) := by omega
  have hconv : PFloat.ofNat floatPrec meters = ⟨meters, 0⟩ := roundSig_exact 24 meters h
  simp only [imperialFeet, if_neg hneg, Int.natAbs_ofNat, float_3281, hconv]

theorem imperialFeet_bounds (meters : Nat) (h : meters ≤ 1609265) :
    ∃ feet : Nat, imperialFeet (meters : Int) = (feet : Int) ∧
      feet = (PFloat.mul floatPrec ⟨meters, 0⟩ ⟨13761511, -22⟩).trunc ∧
      meters * 3281 / 1000 ≤ feet + 1 ∧ feet ≤ meters * 3281 / 1000 + 1 := by
  obtain ⟨sh, hexp, h1, h2, h3⟩ := roundSig_error 24 (meters * 13761511) (by decide)
  have hts := trunc_shift (roundSig 24 (meters * 13761511) false).mant sh 22
  simp only [Nat.cast_ofNat] at hts
  have htr : (PFloat.mul floatPrec ⟨meters, 0⟩ ⟨13761511, -22⟩).trunc
      = (roundSig 24 (meters * 13761511) false).mant * 2 ^ sh / 2 ^ 22 := by
    simp only [PFloat.mul, floatPrec, hexp]
    exact hts
  have hp22 : (2 : Nat) ^ 22 = 4194304 := by norm_num
  have hp23 : (2 : Nat) ^ (24 - 1) = 8388608 := by norm_num
  rw [hp23] at h3
  rw [hp22] at htr
  refine ⟨(PFloat.mul floatPrec ⟨meters, 0⟩ ⟨13761511, -22⟩).trunc, ?_, rfl, ?_, ?_⟩
  · rw [imperialFeet_natCast meters (by norm_num; omega), htr]
    apply min_eq_right
    omega
  · rw [htr]; omega
  · rw [htr]; omega

theorem imperialText_natCast (f : Nat) :
    imperialText (f : Int)
      = Nat.repr (f / 5280) ++ "." ++ Nat.repr (f % 5280 / 528) ++ "mi" := by
  have h2 := tdiv_natCast f 5280
  have h3 := frac_natCast f 5280 528
  simp only [Nat.cast_ofNat] at h2 h3
  simp only [imperialText]
  rw [h3, h2, fmtInt_natCast, fmtInt_natCast]

theorem imperialText_length (f : Nat) :
    (imperialText (f : Int)).length = (Nat.repr (f / 5280)).length + 4 := by
  rw [imperialText_natCast f]
  simp only [String.length_append, repr_length_one (f % 5280 / 528) (by omega)]
  rfl

theorem imperialText_fits (meters : Nat) (h : meters ≤ 1609265) :
    (imperialText (imperialFeet (meters : Int))).length ≤ 7 := by
  obtain ⟨feet, hf, _, _, hhi⟩ := imperialFeet_bounds meters h
  rw [hf, imperialText_length]
  have := repr_length_le (feet / 5280) 3 (by decide) (by omega)
  omega

/-- C5 is false as stated: `feet` is a `float` product, not the exact one.  At
20879 meters the code computes 68504 feet where `20879 * 3.281 = 68503.999`
truncates to 68503; at 96395 meters the buffer holds `59.9mi` where the exact
product 316271 would give `59.8mi`; and at 1609266 meters the text `1000.0mi`
has eight characters, of which the buffer keeps `1000.0m`. -/
theorem C5_counterexample :
    imperialFeet 20879 = 68504 ∧ (20879 * 3281 / 1000 : Nat) = 68503 ∧
    (update_watchface ⟨0, 0, 96395, 0, 0, MeasurementSystemImperial⟩).s_distance_buffer
      = "59.9mi" ∧
    (96395 * 3281 / 1000 : Nat) = 316271 ∧ imperialText 316271 = "59.8mi" ∧
    imperialFeet 1609266 = 5280001 ∧ imperialText 5280001 = "1000.0mi" ∧
    (update_watchface ⟨0, 0, 1609266, 0, 0, MeasurementSystemImperial⟩).s_distance_buffer
      = "1000.0m" := by
  decide

/-- C5 (amended): for a walked distance of at most 1609265 meters under the
Imperial system, `feet` is the integer part of the single-precision product of
`meters` and `3.281F` (not negative, and at most one away from the integer part
of the exact product `meters × 3.281`), and the distance buffer holds the whole
text `<miles>.<t>mi` with `miles = feet / 5280` and `t = (feet mod 5280) / 528`,
a digit in `0..9`.  Nothing is logged. -/
theorem C5_distance_imperial (h : HealthService) (meters : Nat)
    (hsys : h.system = MeasurementSystemImperial)
    (hm : h.walkedDistanceMeters = (meters : Int)) (hhi : meters ≤ 1609265) :
    0 ≤ imperialFeet (meters : Int) ∧
    (imperialFeet (meters : Int)).toNat
      = (PFloat.mul floatPrec (PFloat.ofNat floatPrec meters)
          (PFloat.ofRat floatPrec 3281 1000)).trunc ∧
    meters * 3281 / 1000 ≤ (imperialFeet (meters : Int)).toNat + 1 ∧
    (imperialFeet (meters : Int)).toNat ≤ meters * 3281 / 1000 + 1 ∧
    (imperialFeet (meters : Int)).toNat % 5280 / 528 ≤ 9 ∧
    (update_watchface h).s_distance_buffer
      = Nat.repr ((imperialFeet (meters : Int)).toNat / 5280) ++ "." ++
          Nat.repr ((imperialFeet (meters : Int)).toNat % 5280 / 528) ++ "mi" ∧
    (update_watchface h).log = [] := by
  obtain ⟨feet, hf, hprod, hlo, hup⟩ := imperialFeet_bounds meters hhi
  have hne : ¬ (MeasurementSystemImperial = MeasurementSystemMetric) := by decide
  have hdist : distanceText h.system h.walkedDistanceMeters
      = (imperialText (feet : Int), []) := by
    rw [hsys, hm]
    simp only [distanceText, if_neg hne, if_true, hf]
  have hbuf : (update_watchface h).s_distance_buffer
      = snprintf 8 (imperialText (feet : Int)) := by
    show snprintf 8 (distanceText h.system h.walkedDistanceMeters).1 = _
    rw [hdist]
  have hlog : (update_watchface h).log = [] := by
    show (distanceText h.system h.walkedDistanceMeters).2 = _
    rw [hdist]
  have hfits : (imperialText (feet : Int)).length ≤ 7 := by
    have := imperialText_fits meters hhi
    rwa [hf] at this
  have hconv : PFloat.ofNat floatPrec meters = ⟨meters, 0⟩ :=
    roundSig_exact 24 meters (by norm_num; omega)
  rw [hbuf, (snprintf_eq_iff _).mpr hfits, imperialText_natCast, hf, float_3281, hconv,
    Int.toNat_ofNat]
  exact ⟨by omega, hprod, hlo, hup, by omega, rfl, hlog⟩

/-- Instance of C5 (amended) at 1500 meters. -/
theorem C5_distance_imperial_witness :
    (update_watchface ⟨0, 0, 1500, 0, 0, MeasurementSystemImperial⟩).s_distance_buffer
      = "0.9mi" ∧ imperialFeet 1500 = 4921 :=
  ⟨(C5_distance_imperial ⟨0, 0, 1500, 0, 0, MeasurementSystemImperial⟩ 1500 rfl rfl
      (by decide)).2.2.2.2.2.1.trans (by decide), by decide⟩

/-! ## Battery -/

/-- C9: for every charge percent `p` in `0..100` the fill height computed by
`draw_battery` with cell height 12 is `floor (12 * p / 100)`. -/
theorem C9_battery_level (p : Nat) (hp : p ≤ 100) :
    (draw_battery p).level = ((CELLHEIGHT * p / 100 : Nat) : Int) := by
  interval_cases p <;> decide

/-- Instance of C9 at 50, 100 and 0 percent. -/
theorem C9_battery_level_witness :
    (draw_battery 50).level = 6 ∧ (draw_battery 100).level = 12 ∧
    (draw_battery 0).level = 0 :=
  ⟨(C9_battery_level 50 (by decide)).trans (by decide),
   (C9_battery_level 100 (by decide)).trans (by decide),
   (C9_battery_level 0 (by decide)).trans (by decide)⟩

/-! ## All four texts and their buffers -/

/-- C7 is false as stated: for the 32-bit readings 10000000 steps, 360600 active
seconds, 1609266 meters (Imperial) and 5000000 + 5000000 kcal, each complete
text has eight characters and each buffer loses the last one. -/
theorem C7_counterexample :
    (stepcountText 10000000).length = 8 ∧ (activetimeText 360600).length = 8 ∧
    (distanceText MeasurementSystemImperial 1609266).1.length = 8 ∧
    (distanceText MeasurementSystemMetric 1000000).1.length = 8 ∧
    (kcalText 5000000 5000000).length = 8 ∧
    update_watchface ⟨10000000, 360600, 1609266, 5000000, 5000000, MeasurementSystemImperial⟩
      = ⟨"10000.0", "100h 10", "1000.0m", "1000000", []⟩ := by
  decide

/-- C7 (amended): for a step count below 10000000, an active time below 360600
seconds, a walked distance below 1000000 meters under Metric or of at most
1609265 meters under Imperial (any distance under another system), and a kcal
sum strictly between -1000000 and 10000000, each of the four complete texts has
at most seven characters and each buffer holds its complete text. -/
theorem C7_texts_fit (h : HealthService) (steps secs meters : Nat)
    (hs : h.stepCount = (steps : Int)) (ha : h.activeSeconds = (secs : Int))
    (hm : h.walkedDistanceMeters = (meters : Int))
    (hsteps : steps < 10000000) (hsecs : secs < 360600)
    (hmetric : h.system = MeasurementSystemMetric → meters < 1000000)
    (himperial : h.system = MeasurementSystemImperial → meters ≤ 1609265)
    (hklo : -1000000 < h.activeKCalories + h.restingKCalories)
    (hkhi : h.activeKCalories + h.restingKCalories < 10000000) :
    (stepcountText h.stepCount).length ≤ 7 ∧
    (activetimeText h.activeSeconds).length ≤ 7 ∧
    (distanceText h.system h.walkedDistanceMeters).1.length ≤ 7 ∧
    (kcalText h.activeKCalories h.restingKCalories).length ≤ 7 ∧
    (update_watchface h).s_stepcount_buffer = stepcountText h.stepCount ∧
    (update_watchface h).s_activetime_buffer = activetimeText h.activeSeconds ∧
    (update_watchface h).s_distance_buffer
      = (distanceText h.system h.walkedDistanceMeters).1 ∧
    (update_watchface h).s_kcal_buffer
      = kcalText h.activeKCalories h.restingKCalories := by
  have h1 : (stepcountText h.stepCount).length ≤ 7 := by
    rw [hs]
    by_cases hc : steps < 10000
    · rw [stepcountText_small steps hc]
      have := repr_length_le steps 4 (by decide) (by omega)
      omega
    · rw [stepcountText_length steps (by omega)]
      have := repr_length_le (steps / 1000) 4 (by decide) (by omega)
      omega
  have h2 : (activetimeText h.activeSeconds).length ≤ 7 := by
    rw [ha]
    apply (activetimeText_fits_iff secs).mpr
    omega
  have h3 : (distanceText h.system h.walkedDistanceMeters).1.length ≤ 7 := by
    rw [hm]
    by_cases hM : h.system = MeasurementSystemMetric
    · simp only [distanceText, if_pos hM]
      rw [metricText_length]
      have := repr_length_le (meters / 1000) 3 (by decide) (by have := hmetric hM; omega)
      omega
    · by_cases hI : h.system = MeasurementSystemImperial
      · simp only [distanceText, if_neg hM, if_pos hI]
        exact imperialText_fits meters (himperial hI)
      · simp only [distanceText, if_neg hM, if_neg hI]
        decide
  have h4 : (kcalText h.activeKCalories h.restingKCalories).length ≤ 7 := by
    rw [kcalText, wrap32_of_range _ (by omega) (by omega)]
    exact (fmtInt_length_le_iff _).mpr ⟨hklo, hkhi⟩
  exact ⟨h1, h2, h3, h4, (snprintf_eq_iff _).mpr h1, (snprintf_eq_iff _).mpr h2,
    (snprintf_eq_iff _).mpr h3, (snprintf_eq_iff _).mpr h4⟩

/-- Instance of C7 (amended) at the readings 12345, 5400, 1500, 120 and 980. -/
theorem C7_texts_fit_witness :
    (update_watchface ⟨12345, 5400, 1500, 120, 980, MeasurementSystemImperial⟩).s_stepcount_buffer
      = "12.3k" ∧
    (update_watchface ⟨12345, 5400, 1500, 120, 980, MeasurementSystemImperial⟩).s_activetime_buffer
      = "1h 30m" ∧
    (update_watchface ⟨12345, 5400, 1500, 120, 980, MeasurementSystemImperial⟩).s_distance_buffer
      = "0.9mi" ∧
    (update_watchface ⟨12345, 5400, 1500, 120, 980, MeasurementSystemImperial⟩).s_kcal_buffer
      = "1100" :=
  have w := C7_texts_fit ⟨12345, 5400, 1500, 120, 980, MeasurementSystemImperial⟩
    12345 5400 1500 rfl rfl rfl (by decide) (by decide) (by decide) (by decide)
    (by decide) (by decide)
  ⟨w.2.2.2.2.1.trans (by decide), w.2.2.2.2.2.1.trans (by decide),
   w.2.2.2.2.2.2.1.trans (by decide), w.2.2.2.2.2.2.2.trans (by decide)⟩

end HealthMetrics
